import Mathlib

/-!
Shallow embedding of the scoring and aggregation engine of the
marathon-scoreboard application (the `App` component): the point-value
table, book-count normalizer, stats calculator, team aggregator
(filter/sort), CSV exporter, and the two admin mutation paths
(per-category count adjustment and bulk by-date score update).

JavaScript objects used as string-keyed count maps are embedded as total
functions `String → Int` (reading a missing key with `|| 0` yields `0`,
which the total function realizes directly); JS numbers arising in the
scoring arithmetic are embedded as `ℚ` (the point weights 0.5 and 0.25
are not integral); the stable JS array sort with comparator
`b.stat - a.stat` is embedded as a stable insertion sort with the
relation `stat b ≤ stat a`; the CSV blob is embedded as its list of
rows (header row first), each row the list of its comma-separated
fields.
-/

namespace Marathon

/-- Keys of the `BOOK_VALUES` object, in insertion order (this is what
`Object.keys(BOOK_VALUES)` enumerates). -/
def CATEGORIES : List String := ["Bhagavatam", "CC", "MBB", "BB", "MB", "SB"]

/-- Point value per category; an absent key read with `|| 0` gives 0. -/
def BOOK_VALUES (c : String) : ℚ :=
  if c = "Bhagavatam" then 72
  else if c = "CC" then 36
  else if c = "MBB" then 2
  else if c = "BB" then 1
  else if c = "MB" then 1/2
  else if c = "SB" then 1/4
  else 0

/-- Book equivalence factor per category (1 Bhagavatam == 18 MBB,
1 CC == 9 MBB); an absent key read with `|| 0` gives 0. -/
def BOOK_EQUIV (c : String) : ℚ :=
  if c = "Bhagavatam" then 18
  else if c = "CC" then 9
  else if c = "MBB" then 1
  else if c = "BB" then 1
  else if c = "MB" then 1
  else if c = "SB" then 1
  else 0

/-- A flat category-to-count mapping; reading any key returns its count,
with 0 for keys never written (`books[k] || 0`). -/
def BookCounts : Type := String → Int

/-- One dated history entry `{ date, ...books }`. -/
structure HistoryEntry where
  date : String
  counts : BookCounts

/-- The persisted book field of a team: either the legacy flat shape or
the history shape (array of dated entries). -/
inductive BooksData where
  | flat (bc : BookCounts)
  | history (entries : List HistoryEntry)

/-- The result record `{ totalBooks, totalPoints }` of `calculateStats`. -/
structure Stats where
  totalBooks : ℚ
  totalPoints : ℚ
deriving DecidableEq, Repr

/-- One iteration of the `Object.keys(BOOK_VALUES).forEach` accumulation
body: add `count * value` into `totalPoints` and `count * equiv` into
`totalBooks` for one category. -/
def accumCategory (bc : BookCounts) (s : Stats) (bookType : String) : Stats :=
  { totalBooks := s.totalBooks + (bc bookType : ℚ) * BOOK_EQUIV bookType
    totalPoints := s.totalPoints + (bc bookType : ℚ) * BOOK_VALUES bookType }

/-- `calculateStats(booksData, specificDate)` from the App component:
the flat branch accumulates over the fixed category set ignoring the
date; the history branch first filters entries by `entry.date ===
specificDate` when a date is supplied, then accumulates every surviving
entry over the fixed category set. -/
def calculateStats (booksData : BooksData) (specificDate : Option String) : Stats :=
  match booksData with
  | .flat bc => CATEGORIES.foldl (accumCategory bc) ⟨0, 0⟩
  | .history entries =>
    let filteredEntries : List HistoryEntry :=
      match specificDate with
      | some d => entries.filter (fun entry => entry.date == d)
      | none => entries
    filteredEntries.foldl (fun s entry => CATEGORIES.foldl (accumCategory entry.counts) s) ⟨0, 0⟩

/-- A team document as read from the store, restricted to the fields the
scoring and aggregation engine consults; `books` / `booksHistory` are
`none` when the field is absent from the document. -/
structure Team where
  name : String
  leader : String
  books : Option BookCounts
  booksHistory : Option (List HistoryEntry)

/-- `team.booksHistory || team.books || {}`: the first present book
field, with both absent defaulting to the empty mapping. -/
def teamBooksData (team : Team) : BooksData :=
  match team.booksHistory with
  | some h => .history h
  | none =>
    match team.books with
    | some b => .flat b
    | none => .flat (fun _ => 0)

/-- A team together with its derived stats and normalized book fields,
as produced by `getTeamsWithStats`. -/
structure TeamWithStats where
  name : String
  leader : String
  books : BookCounts
  booksHistory : List HistoryEntry
  totalBooks : ℚ
  totalPoints : ℚ

/-- `getTeamsWithStats(dateFilter)`: compute each team's stats from its
book data with the given date filter; legacy flat data keeps its mapping
as the current `books` and is wrapped as a single history entry dated
`selectedDate`, history-shaped data keeps its entries and gets `{}` as
its `books`. -/
def getTeamsWithStats (teams : List Team) (selectedDate : String)
    (dateFilter : Option String) : List TeamWithStats :=
  teams.map (fun team =>
    match teamBooksData team with
    | .flat bc =>
      let stats := calculateStats (.flat bc) dateFilter
      ⟨team.name, team.leader, bc, [⟨selectedDate, bc⟩], stats.totalBooks, stats.totalPoints⟩
    | .history entries =>
      let stats := calculateStats (.history entries) dateFilter
      ⟨team.name, team.leader, fun _ => 0, entries, stats.totalBooks, stats.totalPoints⟩)

/-- Occurrence of the character list `sub` inside a character list: at
the front, or anywhere in the tail. -/
def charsHaveSub (sub : List Char) : List Char → Bool
  | [] => sub.isEmpty
  | c :: cs => sub.isPrefixOf (c :: cs) || charsHaveSub sub cs

/-- `s.includes(sub)` on JS strings. -/
def strIncludes (s sub : String) : Bool := charsHaveSub sub.data s.data

/-- The `if (searchTerm)` filter of `getFilteredTeams`: case-insensitive
name substring match, skipped when the search term is empty (falsy). -/
def nameFilterStep (searchTerm : String) (l : List TeamWithStats) : List TeamWithStats :=
  if searchTerm ≠ "" then
    l.filter (fun team => strIncludes team.name.toLower searchTerm.toLower)
  else l

/-- The `if (filterLeader !== 'all')` filter of `getFilteredTeams`:
exact leader match, skipped for the sentinel value `"all"`. -/
def leaderFilterStep (filterLeader : String) (l : List TeamWithStats) : List TeamWithStats :=
  if filterLeader ≠ "all" then l.filter (fun team => team.leader == filterLeader) else l

/-- The statistic compared by the sort comparator: `totalPoints` when
`sortBy === 'points'`, `totalBooks` otherwise. -/
def cmpStat (sortBy : String) (team : TeamWithStats) : ℚ :=
  if sortBy = "points" then team.totalPoints else team.totalBooks

/-- The ordering realized by the comparator `(a, b) => b.stat - a.stat`:
`a` sorts no later than `b` exactly when `b`'s statistic is at most
`a`'s. -/
def descRel (sortBy : String) (a b : TeamWithStats) : Prop :=
  cmpStat sortBy b ≤ cmpStat sortBy a

instance (sortBy : String) : DecidableRel (descRel sortBy) :=
  fun a b => inferInstanceAs (Decidable (cmpStat sortBy b ≤ cmpStat sortBy a))

instance (sortBy : String) : IsTotal TeamWithStats (descRel sortBy) :=
  ⟨fun a b => le_total (cmpStat sortBy b) (cmpStat sortBy a)⟩

instance (sortBy : String) : IsTrans TeamWithStats (descRel sortBy) :=
  ⟨fun _ _ _ hab hbc => le_trans hbc hab⟩

/-- `filtered.sort(comparator)`: JS `Array.prototype.sort` is a stable
sort consistent with its comparator, embedded as the stable insertion
sort over `descRel`. -/
def sortTeams (sortBy : String) (l : List TeamWithStats) : List TeamWithStats :=
  l.insertionSort (descRel sortBy)

/-- `getFilteredTeams()`: stats computed with the selected date as the
date filter, then the name filter, then the leader filter, then the
sort. -/
def getFilteredTeams (teams : List Team)
    (searchTerm filterLeader sortBy selectedDate : String) : List TeamWithStats :=
  sortTeams sortBy
    (leaderFilterStep filterLeader
      (nameFilterStep searchTerm (getTeamsWithStats teams selectedDate (some selectedDate))))

/-- The fixed header row of the exported CSV. -/
def CSV_HEADERS : List String :=
  ["Rank", "Team Name", "BV Leader", "Bhagavatam", "CC", "MBB", "BB", "MB", "SB",
   "Total Books", "Total Points"]

/-- `q.toFixed(2)` for the non-negative, quarter-integral point totals
this application produces: a whole number of hundredths printed with
exactly two digits after the decimal point. -/
def toFixed2 (q : ℚ) : String :=
  let cents : Nat := (round (q * 100)).toNat
  toString (cents / 100) ++ "." ++
    String.mk [Nat.digitChar (cents / 10 % 10), Nat.digitChar (cents % 10)]

/-- One CSV data row for the team at 0-based position `idx`. -/
def csvRow (idx : Nat) (team : TeamWithStats) : List String :=
  [toString (idx + 1), team.name, team.leader,
   toString (team.books "Bhagavatam"), toString (team.books "CC"),
   toString (team.books "MBB"), toString (team.books "BB"),
   toString (team.books "MB"), toString (team.books "SB"),
   toString team.totalBooks, toFixed2 team.totalPoints]

/-- `array.map((x, idx) => f(idx, x))`: map carrying the element
index. -/
def mapWithIdx (f : Nat → α → β) : Nat → List α → List β
  | _, [] => []
  | i, a :: l => f i a :: mapWithIdx f (i + 1) l

/-- `exportToCSV()`: the header row followed by one data row per
filtered team, as the list of rows of the produced file. -/
def exportToCSV (teams : List Team)
    (searchTerm filterLeader sortBy selectedDate : String) : List (List String) :=
  let teamsWithStats := getFilteredTeams teams searchTerm filterLeader sortBy selectedDate
  CSV_HEADERS :: mapWithIdx csvRow 0 teamsWithStats

/-- The books-map update at the heart of `handleUpdateBookCount`:
`newCount = Math.max(0, (currentBooks[bookType] || 0) + delta)` written
back under `bookType`, every other key untouched. -/
def handleUpdateBookCount (currentBooks : BookCounts) (bookType : String) (delta : Int) :
    BookCounts :=
  fun k => if k = bookType then max 0 (currentBooks bookType + delta) else currentBooks k

/-- The history update of the bulk `AdminUpdateScoreModal onUpdate`
flow: `findIndex` the entry for the date and overwrite it in place, else
`push` a new entry. -/
def updateScoreHistory (booksHistory : List HistoryEntry) (date : String) (books : BookCounts) :
    List HistoryEntry :=
  match booksHistory.findIdx? (fun entry => entry.date == date) with
  | some i => booksHistory.set i ⟨date, books⟩
  | none => booksHistory ++ [⟨date, books⟩]

/-- The flat mapping of the worked example: one Bhagavatam, three MBB. -/
def exampleCounts : BookCounts :=
  fun c => if c = "Bhagavatam" then 1 else if c = "MBB" then 3 else 0

/-- A two-team collection with flat book data, used to instantiate the
aggregation theorems on concrete input. -/
def wTeams : List Team :=
  [⟨"Alpha Squad", "L1", some exampleCounts, none⟩,
   ⟨"Beta Team", "L2", some (fun _ => 0), none⟩]

/-- A computed team row with 10 points, for concrete sorting checks. -/
def wStatsA : TeamWithStats := ⟨"Alpha Squad", "L1", fun _ => 0, [], 0, 10⟩

/-- A computed team row with 5 points, for concrete sorting checks. -/
def wStatsB : TeamWithStats := ⟨"Beta Team", "L2", fun _ => 0, [], 0, 5⟩

/-! ### Characterizations of the accumulation folds -/

theorem foldl_accumCategory (bc : BookCounts) :
    ∀ (l : List String) (s : Stats),
      l.foldl (accumCategory bc) s =
        ⟨s.totalBooks + (l.map fun c => (bc c : ℚ) * BOOK_EQUIV c).sum,
         s.totalPoints + (l.map fun c => (bc c : ℚ) * BOOK_VALUES c).sum⟩
  | [], s => by simp
  | c :: l, s => by
    rw [List.foldl_cons, foldl_accumCategory bc l]
    simp [accumCategory, add_assoc]

theorem foldl_entries (entries : List HistoryEntry) :
    ∀ s : Stats,
      entries.foldl (fun s entry => CATEGORIES.foldl (accumCategory entry.counts) s) s =
        ⟨s.totalBooks +
            (entries.map fun e => (CATEGORIES.map fun c => (e.counts c : ℚ) * BOOK_EQUIV c).sum).sum,
         s.totalPoints +
            (entries.map fun e =>
              (CATEGORIES.map fun c => (e.counts c : ℚ) * BOOK_VALUES c).sum).sum⟩ := by
  induction entries with
  | nil => intro s; simp
  | cons e entries ih =>
    intro s
    rw [List.foldl_cons, ih, foldl_accumCategory]
    simp [add_assoc]

theorem calculateStats_flat_def (bc : BookCounts) (d : Option String) :
    calculateStats (.flat bc) d = CATEGORIES.foldl (accumCategory bc) ⟨0, 0⟩ := rfl

theorem calculateStats_history_none_def (entries : List HistoryEntry) :
    calculateStats (.history entries) none =
      entries.foldl (fun s entry => CATEGORIES.foldl (accumCategory entry.counts) s) ⟨0, 0⟩ := rfl

theorem calculateStats_history_some_def (entries : List HistoryEntry) (d : String) :
    calculateStats (.history entries) (some d) =
      (entries.filter fun entry => entry.date == d).foldl
        (fun s entry => CATEGORIES.foldl (accumCategory entry.counts) s) ⟨0, 0⟩ := rfl

theorem calculateStats_flat_eq (bc : BookCounts) (d : Option String) :
    calculateStats (.flat bc) d =
      ⟨(CATEGORIES.map fun c => (bc c : ℚ) * BOOK_EQUIV c).sum,
       (CATEGORIES.map fun c => (bc c : ℚ) * BOOK_VALUES c).sum⟩ := by
  rw [calculateStats_flat_def, foldl_accumCategory]
  simp

/-! ### Claim theorems: the stats calculator -/

/-- C1: for every `BookCounts` input, the flat-shape stats calculation
returns `totalPoints` equal to the sum over the fixed category set of
`count[c] * weight[c]`; a category code outside the fixed set
contributes nothing (two inputs agreeing on the fixed set yield the same
stats); and the input `{Bhagavatam: 1, MBB: 3}` yields
`totalPoints = 78`. -/
theorem claim_points_weighted_sum (bc bc' : BookCounts) (d : Option String)
    (hagree : ∀ c ∈ CATEGORIES, bc c = bc' c) :
    (calculateStats (.flat bc) d).totalPoints =
        (CATEGORIES.map fun c => (bc c : ℚ) * BOOK_VALUES c).sum
    ∧ calculateStats (.flat bc) d = calculateStats (.flat bc') d
    ∧ (calculateStats (.flat exampleCounts) d).totalPoints = 78 := by
  refine ⟨by rw [calculateStats_flat_eq], ?_, ?_⟩
  · rw [calculateStats_flat_eq, calculateStats_flat_eq]
    have h1 : (CATEGORIES.map fun c => (bc c : ℚ) * BOOK_EQUIV c) =
        CATEGORIES.map fun c => (bc' c : ℚ) * BOOK_EQUIV c :=
      List.map_congr_left fun c hc => by rw [hagree c hc]
    have h2 : (CATEGORIES.map fun c => (bc c : ℚ) * BOOK_VALUES c) =
        CATEGORIES.map fun c => (bc' c : ℚ) * BOOK_VALUES c :=
      List.map_congr_left fun c hc => by rw [hagree c hc]
    rw [h1, h2]
  · rw [calculateStats_flat_eq]
    simp [CATEGORIES, BOOK_VALUES, exampleCounts]
    norm_num

/-- Witness for C1 at the worked example of the spec. -/
theorem claim_points_weighted_sum_witness :
    (calculateStats (.flat exampleCounts) none).totalPoints = 78 :=
  (claim_points_weighted_sum exampleCounts exampleCounts none (fun _ _ => rfl)).2.2

/-- C2: with no date filter, the history-shape stats calculation returns
the sums of the per-entry totals across all dated entries (the
cumulative lifetime totals). -/
theorem claim_history_cumulative (entries : List HistoryEntry) :
    (calculateStats (.history entries) none).totalBooks =
        (entries.map fun e => (calculateStats (.flat e.counts) none).totalBooks).sum
    ∧ (calculateStats (.history entries) none).totalPoints =
        (entries.map fun e => (calculateStats (.flat e.counts) none).totalPoints).sum := by
  have hmapB : (entries.map fun e => (calculateStats (.flat e.counts) none).totalBooks) =
      entries.map fun e => (CATEGORIES.map fun c => (e.counts c : ℚ) * BOOK_EQUIV c).sum :=
    List.map_congr_left fun e _ => by rw [calculateStats_flat_eq]
  have hmapP : (entries.map fun e => (calculateStats (.flat e.counts) none).totalPoints) =
      entries.map fun e => (CATEGORIES.map fun c => (e.counts c : ℚ) * BOOK_VALUES c).sum :=
    List.map_congr_left fun e _ => by rw [calculateStats_flat_eq]
  rw [calculateStats_history_none_def, foldl_entries, hmapB, hmapP]
  exact ⟨by simp, by simp⟩

/-- C3: a date filter matching no history entry yields all-zero stats
(and, being a total function, the calculation raises no error). -/
theorem claim_history_no_match_zero (entries : List HistoryEntry) (d : String)
    (h : ∀ e ∈ entries, e.date ≠ d) :
    calculateStats (.history entries) (some d) = ⟨0, 0⟩ := by
  have hnil : (entries.filter fun entry => entry.date == d) = [] :=
    List.filter_eq_nil_iff.mpr (by simpa using h)
  rw [calculateStats_history_some_def, hnil]
  rfl

/-- Witness for C3: one entry dated 2024-01-01, filtered for
2024-01-02. -/
theorem claim_history_no_match_zero_witness :
    calculateStats (.history [⟨"2024-01-01", exampleCounts⟩]) (some "2024-01-02") = ⟨0, 0⟩ :=
  claim_history_no_match_zero [⟨"2024-01-01", exampleCounts⟩] "2024-01-02" (by decide)

/-- C10: the flat (legacy) branch of the stats calculation ignores the
date filter entirely — every filter value, including none, yields the
same stats — and consequently `getTeamsWithStats` over teams carrying
only flat book data is unchanged by the date filter. -/
theorem claim_flat_ignores_date_filter (bc : BookCounts) (d : Option String)
    (teams : List Team) (selectedDate fd : String)
    (hflat : ∀ t ∈ teams, t.booksHistory = none) :
    calculateStats (.flat bc) d = calculateStats (.flat bc) none
    ∧ getTeamsWithStats teams selectedDate (some fd) =
        getTeamsWithStats teams selectedDate none := by
  refine ⟨rfl, ?_⟩
  unfold getTeamsWithStats
  refine List.map_congr_left fun t ht => ?_
  have hbd : ∃ bc', teamBooksData t = .flat bc' := by
    unfold teamBooksData
    rw [hflat t ht]
    cases t.books <;> exact ⟨_, rfl⟩
  obtain ⟨bc', hbc'⟩ := hbd
  rw [hbc']
  rfl

/-! ### Claim theorems: admin decrement, filters, sorting -/

/-- C5: the per-category count update clamps at zero — the updated key
is set to `max 0 (count + delta)` — so starting from non-negative stored
counts every count stays non-negative, and any delta that would take the
stored count to zero or below yields exactly 0. -/
theorem claim_decrement_clamped (currentBooks : BookCounts) (bookType : String) (delta : Int)
    (hnn : ∀ k, 0 ≤ currentBooks k) :
    (∀ k, 0 ≤ handleUpdateBookCount currentBooks bookType delta k)
    ∧ (currentBooks bookType + delta ≤ 0 →
        handleUpdateBookCount currentBooks bookType delta bookType = 0) := by
  constructor
  · intro k
    unfold handleUpdateBookCount
    split
    · exact le_max_left 0 _
    · exact hnn k
  · intro hle
    unfold handleUpdateBookCount
    rw [if_pos rfl]
    exact max_eq_left hle

/-- Witness for C5: decrementing a zero count leaves it at zero. -/
theorem claim_decrement_clamped_witness :
    handleUpdateBookCount (fun _ => 0) "BB" (-1) "BB" = 0 :=
  (claim_decrement_clamped (fun _ => 0) "BB" (-1) (fun _ => le_refl 0)).2 (by decide)

/-- C9: the case-insensitive name-substring filter and the
leader-equality filter commute: applying them in either order to any
team list yields the same list. -/
theorem claim_filters_commute (l : List TeamWithStats) (searchTerm filterLeader : String) :
    leaderFilterStep filterLeader (nameFilterStep searchTerm l) =
      nameFilterStep searchTerm (leaderFilterStep filterLeader l) := by
  unfold nameFilterStep leaderFilterStep
  split
  · split
    · rw [List.filter_filter, List.filter_filter]
      exact List.filter_congr fun t _ => Bool.and_comm _ _
    · rfl
  · rfl

/-- C8: sorting is idempotent — a list already sorted descending by the
active key is returned unchanged — and in particular two teams with
equal statistics keep their input order (no secondary key, no
reordering of ties). -/
theorem claim_sort_idempotent (sortBy : String) (l : List TeamWithStats)
    (h : List.Sorted (descRel sortBy) l) :
    sortTeams sortBy l = l
    ∧ ∀ a b : TeamWithStats, cmpStat sortBy a = cmpStat sortBy b →
        sortTeams sortBy [a, b] = [a, b] := by
  constructor
  · exact h.insertionSort_eq
  · intro a b hab
    apply List.Sorted.insertionSort_eq
    simp [List.sorted_cons, descRel, hab]

/-- C7: for every team collection, every filter state and every sort
key, the aggregated output is sorted descending in the key's statistic:
any earlier position carries a statistic at least as large as any later
one (there is no ascending mode for any key value). -/
theorem claim_sort_descending (teams : List Team)
    (searchTerm filterLeader sortBy selectedDate : String)
    (i j : Fin (getFilteredTeams teams searchTerm filterLeader sortBy selectedDate).length)
    (hij : i < j) :
    cmpStat sortBy
        ((getFilteredTeams teams searchTerm filterLeader sortBy selectedDate).get j) ≤
      cmpStat sortBy
        ((getFilteredTeams teams searchTerm filterLeader sortBy selectedDate).get i) := by
  have hsorted :
      List.Sorted (descRel sortBy)
        (getFilteredTeams teams searchTerm filterLeader sortBy selectedDate) :=
    List.sorted_insertionSort (descRel sortBy) _
  exact hsorted.rel_get_of_lt hij

/-- Witness for C8: the descending two-element list `[10, 5]` is left
unchanged by a points re-sort. -/
theorem claim_sort_idempotent_witness :
    sortTeams "points" [wStatsA, wStatsB] = [wStatsA, wStatsB] :=
  (claim_sort_idempotent "points" [wStatsA, wStatsB]
    (by simp [List.sorted_cons, descRel, cmpStat, wStatsA, wStatsB]; norm_num)).1

theorem nameFilterStep_empty (l : List TeamWithStats) : nameFilterStep "" l = l := by
  unfold nameFilterStep
  rw [if_neg (by decide)]

theorem leaderFilterStep_all (l : List TeamWithStats) : leaderFilterStep "all" l = l := by
  unfold leaderFilterStep
  rw [if_neg (by decide)]

theorem getFilteredTeams_wTeams_length :
    (getFilteredTeams wTeams "" "all" "points" "2024-01-01").length = 2 := by
  unfold getFilteredTeams sortTeams
  rw [(List.perm_insertionSort (descRel "points") _).length_eq, leaderFilterStep_all,
    nameFilterStep_empty]
  simp [getTeamsWithStats, wTeams]

/-- Witness for C7: on the concrete two-team collection, the entry in
position 2 scores no more than the entry in position 1. -/
theorem claim_sort_descending_witness :
    cmpStat "points"
        ((getFilteredTeams wTeams "" "all" "points" "2024-01-01").get
          ⟨1, by rw [getFilteredTeams_wTeams_length]; decide⟩) ≤
      cmpStat "points"
        ((getFilteredTeams wTeams "" "all" "points" "2024-01-01").get
          ⟨0, by rw [getFilteredTeams_wTeams_length]; decide⟩) :=
  claim_sort_descending wTeams "" "all" "points" "2024-01-01"
    ⟨0, by rw [getFilteredTeams_wTeams_length]; decide⟩
    ⟨1, by rw [getFilteredTeams_wTeams_length]; decide⟩ (by decide)

theorem set_of_getElem? {α : Type _} :
    ∀ (l : List α) (i : Nat) (a : α), l[i]? = some a → l.set i a = l
  | [], i, a, h => by simp at h
  | b :: l, 0, a, h => by
    simp at h
    simp [List.set, h]
  | b :: l, i + 1, a, h => by
    simp at h
    simp [List.set, set_of_getElem? l i a h]

/-- C6: the bulk by-date score update preserves "at most one history
entry per distinct date": on a history with pairwise-distinct dates the
result again has pairwise-distinct dates; when an entry for the chosen
date exists the length is unchanged (overwrite in place), and when none
exists exactly the one new entry is appended. -/
theorem claim_history_unique_dates_preserved (history : List HistoryEntry) (date : String)
    (books : BookCounts) (h : (history.map HistoryEntry.date).Nodup) :
    ((updateScoreHistory history date books).map HistoryEntry.date).Nodup
    ∧ ((∃ e ∈ history, e.date = date) →
        ∃ i, ∃ hi : i < history.length,
          (history.get ⟨i, hi⟩).date = date
          ∧ updateScoreHistory history date books = history.set i ⟨date, books⟩
          ∧ (updateScoreHistory history date books).length = history.length)
    ∧ ((∀ e ∈ history, e.date ≠ date) →
        updateScoreHistory history date books = history ++ [⟨date, books⟩]) := by
  unfold updateScoreHistory
  cases hfind : history.findIdx? (fun entry => entry.date == date) with
  | some i =>
    obtain ⟨hi, hp, -⟩ := List.findIdx?_eq_some_iff_getElem.mp hfind
    have hdate : (history.get ⟨i, hi⟩).date = date := by simpa using hp
    have hmap : (history.set i ⟨date, books⟩).map HistoryEntry.date =
        history.map HistoryEntry.date := by
      rw [List.map_set]
      apply set_of_getElem?
      rw [List.getElem?_map, List.getElem?_eq_getElem hi]
      simpa using hdate
    refine ⟨by rw [hmap]; exact h, fun _ => ⟨i, hi, hdate, rfl, by simp⟩, ?_⟩
    intro hall
    exact absurd hdate (hall (history.get ⟨i, hi⟩) (List.get_mem history i hi))
  | none =>
    have hnone := List.findIdx?_eq_none_iff.mp hfind
    have hnotmem : date ∉ history.map HistoryEntry.date := by
      simp only [List.mem_map]
      rintro ⟨e, he, hd⟩
      have := hnone e he
      simp [hd] at this
    refine ⟨?_, ?_, fun _ => rfl⟩
    · rw [List.map_append]
      exact List.Nodup.append h (List.nodup_singleton date)
        (by simpa [List.disjoint_singleton] using hnotmem)
    · rintro ⟨e, he, hd⟩
      have := hnone e he
      simp [hd] at this

/-- Witness for C6: updating a fresh date on a one-entry history appends
exactly one entry. -/
theorem claim_history_unique_dates_preserved_witness :
    updateScoreHistory [⟨"2024-01-01", exampleCounts⟩] "2024-01-02" exampleCounts =
      [⟨"2024-01-01", exampleCounts⟩] ++ [⟨"2024-01-02", exampleCounts⟩] :=
  (claim_history_unique_dates_preserved [⟨"2024-01-01", exampleCounts⟩] "2024-01-02"
    exampleCounts (by simp)).2.2 (by decide)

theorem length_mapWithIdx (f : Nat → α → β) :
    ∀ (n : Nat) (l : List α), (mapWithIdx f n l).length = l.length
  | _, [] => rfl
  | n, _ :: l => by simp [mapWithIdx, length_mapWithIdx f (n + 1) l]

theorem getElem?_mapWithIdx (f : Nat → α → β) :
    ∀ (n : Nat) (l : List α) (i : Nat), (mapWithIdx f n l)[i]? = l[i]?.map (f (n + i))
  | _, [], i => by simp [mapWithIdx]
  | n, a :: l, 0 => by simp [mapWithIdx]
  | n, a :: l, i + 1 => by
    have hidx : n + (i + 1) = (n + 1) + i := by omega
    simp [mapWithIdx, getElem?_mapWithIdx f (n + 1) l i, hidx]

/-- C4: the CSV export has one row per filtered team plus the fixed
header row; the data row in 1-based file position `i + 2` describes the
team at position `i` of the filtered-and-sorted sequence and carries
rank `i + 1` in its first field; and its last field (Total Points) is an
integer part, a decimal point, and exactly two decimal digits. -/
theorem claim_csv_shape (teams : List Team)
    (searchTerm filterLeader sortBy selectedDate : String) :
    (exportToCSV teams searchTerm filterLeader sortBy selectedDate).length =
        (getFilteredTeams teams searchTerm filterLeader sortBy selectedDate).length + 1
    ∧ (exportToCSV teams searchTerm filterLeader sortBy selectedDate).head? = some CSV_HEADERS
    ∧ ∀ i (hi : i < (getFilteredTeams teams searchTerm filterLeader sortBy selectedDate).length),
        (exportToCSV teams searchTerm filterLeader sortBy selectedDate)[i + 1]? =
            some (csvRow i
              ((getFilteredTeams teams searchTerm filterLeader sortBy selectedDate).get ⟨i, hi⟩))
        ∧ ∀ t : TeamWithStats,
            (csvRow i t).head? = some (toString (i + 1))
            ∧ ∃ w d1 d2 : Nat, d1 < 10 ∧ d2 < 10 ∧
                (csvRow i t).getLast? =
                  some (toString w ++ "." ++ String.mk [Nat.digitChar d1, Nat.digitChar d2]) := by
  refine ⟨?_, rfl, ?_⟩
  · show (CSV_HEADERS :: mapWithIdx csvRow 0 _).length = _
    rw [List.length_cons, length_mapWithIdx]
  · intro i hi
    refine ⟨?_, ?_⟩
    · show (CSV_HEADERS :: mapWithIdx csvRow 0 _)[i + 1]? = _
      rw [List.getElem?_cons_succ, getElem?_mapWithIdx, Nat.zero_add,
        List.getElem?_eq_getElem hi]
      rfl
    · intro t
      refine ⟨rfl, (round (t.totalPoints * 100)).toNat / 100,
        (round (t.totalPoints * 100)).toNat / 10 % 10, (round (t.totalPoints * 100)).toNat % 10,
        Nat.mod_lt _ (by norm_num), Nat.mod_lt _ (by norm_num), rfl⟩

theorem getFilteredTeams_wTeams_pos :
    0 < (getFilteredTeams wTeams "" "all" "points" "2024-01-01").length := by
  rw [getFilteredTeams_wTeams_length]
  decide

/-- Witness for C4: on the concrete two-team collection the second CSV
row is the data row of the first filtered team. -/
theorem claim_csv_shape_witness :
    (exportToCSV wTeams "" "all" "points" "2024-01-01").length =
        (getFilteredTeams wTeams "" "all" "points" "2024-01-01").length + 1
    ∧ (exportToCSV wTeams "" "all" "points" "2024-01-01")[1]? =
        some (csvRow 0
          ((getFilteredTeams wTeams "" "all" "points" "2024-01-01").get
            ⟨0, getFilteredTeams_wTeams_pos⟩)) :=
  ⟨(claim_csv_shape wTeams "" "all" "points" "2024-01-01").1,
   ((claim_csv_shape wTeams "" "all" "points" "2024-01-01").2.2 0
      getFilteredTeams_wTeams_pos).1⟩

/-- Witness for C10 on a one-team collection with flat book data. -/
theorem claim_flat_ignores_date_filter_witness :
    calculateStats (.flat exampleCounts) (some "2024-01-02") =
        calculateStats (.flat exampleCounts) none
    ∧ getTeamsWithStats [⟨"Alpha Squad", "L1", some exampleCounts, none⟩] "2024-01-01"
          (some "2024-01-02") =
        getTeamsWithStats [⟨"Alpha Squad", "L1", some exampleCounts, none⟩] "2024-01-01" none :=
  claim_flat_ignores_date_filter exampleCounts (some "2024-01-02")
    [⟨"Alpha Squad", "L1", some exampleCounts, none⟩] "2024-01-01" "2024-01-02"
    (by intro t ht; simp at ht; rw [ht])

end Marathon
